import Mathlib

/-!
Verification of the hero recommender (Rivals.py): data model (`Hero`),
constructor normalisation, composite scoring (`computeScore`), filtering,
stable sorting by `(-score, lowercase name)`, and Python-style truncation.
Scores are modelled over `ℝ`; `**` is real exponentiation (`Real.rpow`);
`round(x, 4)` is modelled as `round (x * 10000) / 10000`.
-/

namespace Rivals

/-- Embedding of Python's `str.lower()` (the data uses only basic latin). -/
def strLower (s : String) : String :=
  ⟨s.data.map Char.toLower⟩

/-- Embedding of Python's `dict.get(k, d)` for a dict built from an
association list where a later binding for the same key overwrites an
earlier one (last wins). -/
def dget {κ : Type} [BEq κ] (l : List (κ × ℝ)) (k : κ) (d : ℝ) : ℝ :=
  ((l.reverse.find? (fun p => p.1 == k)).map Prod.snd).getD d

/-- Embedding of Python's `round(x, 4)` over the reals (round to the nearest
multiple of `1/10000`). -/
noncomputable def round4 (x : ℝ) : ℝ :=
  (round (x * 10000) : ℤ) / 10000

/-- Embedding of Python's slice `l[:n]` for an integer `n` (negative `n`
counts from the end). -/
def pyTake {α : Type} (n : ℤ) (l : List α) : List α :=
  if 0 ≤ n then l.take n.toNat else l.take ((l.length : ℤ) + n).toNat

/-- The `Hero` record: display name, playable roles, per-map raw scores,
per-role proficiencies, and per-(map, role) bonus multipliers. -/
structure Hero where
  name : String
  roles : List String
  map_scores : List (String × ℝ)
  role_proficiencies : List (String × ℝ)
  map_role_bonus : List ((String × String) × ℝ)

/-- Embedding of `Hero.__init__`: stores roles and all mapping keys
lowercased. -/
def mkHero (name : String) (roles : List String) (map_scores : List (String × ℝ))
    (role_proficiencies : List (String × ℝ))
    (map_role_bonus : List ((String × String) × ℝ)) : Hero where
  name := name
  roles := roles.map strLower
  map_scores := map_scores.map (fun p => (strLower p.1, p.2))
  role_proficiencies := role_proficiencies.map (fun p => (strLower p.1, p.2))
  map_role_bonus := map_role_bonus.map (fun p => ((strLower p.1.1, strLower p.1.2), p.2))

/-- Embedding of `Hero.raw_map_score`: raw numeric map score, default 0. -/
def Hero.raw_map_score (h : Hero) (map_name : String) : ℝ :=
  dget h.map_scores (strLower map_name) 0

/-- Embedding of `Hero.role_proficiency`: proficiency for a role, default 0. -/
def Hero.role_proficiency (h : Hero) (role : String) : ℝ :=
  dget h.role_proficiencies (strLower role) 0

/-- Embedding of `Hero.map_role_bonus_multiplier`: bonus for a (map, role)
pair, default 1. -/
def Hero.map_role_bonus_multiplier (h : Hero) (map_name : String) (role : String) : ℝ :=
  dget h.map_role_bonus (strLower map_name, strLower role) 1

/-- Embedding of the inner `compute_score` closure of `Recommender.recommend`
(`role_lc` is the role already lowercased by `recommend`): with
`raw = h.raw_map_score map_name`, `map_norm = max 0 (min 1 (raw / 10))`,
`role_prof = h.role_proficiency role_lc`,
`base = map_norm * map_weight + role_prof * role_weight` and
`bonus = h.map_role_bonus_multiplier map_name role_lc`, the result is
`round(base * bonus ** (bonus_weight * 10), 4)`. -/
noncomputable def computeScore (h : Hero) (role_lc map_name : String)
    (map_weight role_weight bonus_weight : ℝ) : ℝ :=
  round4 ((max 0 (min 1 (h.raw_map_score map_name / 10)) * map_weight +
      h.role_proficiency role_lc * role_weight) *
    h.map_role_bonus_multiplier map_name role_lc ^ (bonus_weight * 10))

/-- The score formula exactly as the specification words it: rawContextScore
is the entity's context score for the lowercased context (default 0),
roleProficiency its proficiency for the lowercased role (default 0), bonus
its (context, role) bonus multiplier (default 1);
`base = clamp(rawContextScore/10, 0, 1) * mapWeight + roleProficiency * roleWeight`,
and the result is `base * bonus ** (bonusWeight * 10)` rounded to 4 digits. -/
noncomputable def specScore (h : Hero) (role context : String)
    (mapWeight roleWeight bonusWeight : ℝ) : ℝ :=
  round4 ((max 0 (min 1 (dget h.map_scores (strLower context) 0 / 10)) * mapWeight +
      dget h.role_proficiencies (strLower role) 0 * roleWeight) *
    dget h.map_role_bonus (strLower context, strLower role) 1 ^ (bonusWeight * 10))

/-- The candidate filter of `recommend`: heroes whose role list contains the
lowercased requested role. -/
def candidatesOf (heroes : List Hero) (role : String) : List Hero :=
  heroes.filter (fun h => strLower role ∈ h.roles)

/-- The scored candidate list of `recommend`, in dataset order. -/
noncomputable def scoredOf (heroes : List Hero) (role map_name : String)
    (map_weight role_weight bonus_weight : ℝ) : List (Hero × ℝ) :=
  (candidatesOf heroes role).map
    (fun h => (h, computeScore h (strLower role) map_name map_weight role_weight bonus_weight))

/-- The sort relation used by `recommend`: Python's tuple order on the key
`(-score, name.lower())`. -/
def scoreRel (a b : Hero × ℝ) : Prop :=
  b.2 < a.2 ∨ (a.2 = b.2 ∧ strLower a.1.name ≤ strLower b.1.name)

noncomputable instance : DecidableRel scoreRel := fun a b => by
  unfold scoreRel; infer_instance

instance : IsTotal (Hero × ℝ) scoreRel where
  total a b := by
    unfold scoreRel
    rcases lt_trichotomy a.2 b.2 with h | h | h
    · exact Or.inr (Or.inl h)
    · rcases le_total (strLower a.1.name) (strLower b.1.name) with hn | hn
      · exact Or.inl (Or.inr ⟨h, hn⟩)
      · exact Or.inr (Or.inr ⟨h.symm, hn⟩)
    · exact Or.inl (Or.inl h)

instance : IsTrans (Hero × ℝ) scoreRel where
  trans a b c hab hbc := by
    unfold scoreRel at *
    rcases hab with hab | ⟨hab, hna⟩
    · rcases hbc with hbc | ⟨hbc, _⟩
      · exact Or.inl (hbc.trans hab)
      · exact Or.inl (hbc ▸ hab)
    · rcases hbc with hbc | ⟨hbc, hnb⟩
      · exact Or.inl (hab ▸ hbc)
      · exact Or.inr ⟨hab.trans hbc, hna.trans hnb⟩

/-- The sorted scored list of `recommend` (Python's stable `list.sort` with
key `(-score, name.lower())`, modelled by stable insertion sort). -/
noncomputable def sortedScoredOf (heroes : List Hero) (role map_name : String)
    (map_weight role_weight bonus_weight : ℝ) : List (Hero × ℝ) :=
  List.insertionSort scoreRel (scoredOf heroes role map_name map_weight role_weight bonus_weight)

/-- Embedding of `Recommender.recommend`: filter, score, stable sort, then
Python slice `scored[:top_n]`. -/
noncomputable def recommend (heroes : List Hero) (role map_name : String) (top_n : ℤ)
    (map_weight role_weight bonus_weight : ℝ) : List (Hero × ℝ) :=
  pyTake top_n (sortedScoredOf heroes role map_name map_weight role_weight bonus_weight)

/-- The first dataset entity of Rivals.py: context score 9.5 for "midtown",
role proficiency 0.95 for "DPS", bonus 1.05 for ("midtown", "DPS"). -/
noncomputable def spiderMan : Hero :=
  mkHero "Spider-Man" ["DPS"]
    [("midtown", 9.5), ("arakko", 7.0), ("central park", 9.0)]
    [("DPS", 0.95)]
    [(("midtown", "DPS"), 1.05)]

/-- The static dataset `HEROES` of Rivals.py, transcribed with its original
casing (the constructor lowercases). -/
noncomputable def HEROES : List Hero :=
  [ spiderMan,
    mkHero "Wolverine" ["DPS", "Tank"]
      [("midtown", 8.0), ("yggdrasill path", 8.5), ("krakoa", 7.5)]
      [("DPS", 0.85), ("Tank", 0.9)]
      [],
    mkHero "Storm" ["Support", "DPS"]
      [("central park", 8.5), ("symbiotic surface", 9.0)]
      [("Support", 0.9), ("DPS", 0.7)]
      [(("symbiotic surface", "support"), 1.08)],
    mkHero "Doctor Strange" ["Support"]
      [("central park", 7.0), ("hall of djalia", 8.5)]
      [("Support", 0.92)]
      [],
    mkHero "Magneto" ["DPS"]
      [("shin-shibuya", 8.8), ("spider-islands", 7.9)]
      [("DPS", 0.88)]
      [(("shin-shibuya", "dps"), 1.12)],
    mkHero "Iron Man" ["DPS", "Support"]
      [("central park", 8.0), ("midtown", 8.8), ("royal palace", 7.2)]
      [("DPS", 0.9), ("Support", 0.6)]
      [(("midtown", "dps"), 1.04)],
    mkHero "Black Panther" ["DPS", "Support"]
      [("birnin tchalla", 9.4), ("central park", 7.8), ("krakoa", 8.2)]
      [("DPS", 0.9), ("Support", 0.7)]
      [(("birnin tchalla", "dps"), 1.08)],
    mkHero "Hulk" ["Tank", "DPS"]
      [("krakoa", 9.0), ("hells heaven", 8.6), ("yggdrasill path", 7.0)]
      [("Tank", 0.95), ("DPS", 0.6)]
      [],
    mkHero "Scarlet Witch" ["Support", "DPS"]
      [("hall of djalia", 9.1), ("symbiotic surface", 8.4), ("shin-shibuya", 8.0)]
      [("Support", 0.9), ("DPS", 0.75)]
      [(("hall of djalia", "support"), 1.07)],
    mkHero "Groot" ["Tank", "Support"]
      [("royal palace", 8.6), ("yggdrasill path", 8.0)]
      [("Tank", 0.88), ("Support", 0.7)]
      [],
    mkHero "Punisher" ["DPS"]
      [("midtown", 8.9), ("spider-islands", 7.6), ("arakko", 6.5)]
      [("DPS", 0.86)]
      [],
    mkHero "Black Widow" ["DPS", "Support"]
      [("midtown", 8.3), ("shin-shibuya", 8.1), ("central park", 7.5)]
      [("DPS", 0.82), ("Support", 0.65)]
      [] ]

/-- A hero with a perfect raw map score for map "m", no proficiency entry and
no bonus entry, used to probe the score upper bound. -/
noncomputable def probeHero : Hero :=
  mkHero "Probe" ["dps"] [("m", 10)] [] []

/-- A hero with no map score, proficiency or bonus data at all. -/
noncomputable def emptyHero : Hero :=
  mkHero "Nobody" ["dps"] [] [] []

/-- First of two heroes that tie on score and on lowercased name. -/
noncomputable def tieA : Hero :=
  mkHero "aa" ["dps"] [] [] []

/-- Second of two heroes that tie on score and on lowercased name. -/
noncomputable def tieB : Hero :=
  mkHero "AA" ["dps"] [] [] []

/-- A two-element dataset whose members tie on score and lowercased name. -/
noncomputable def tieDS : List Hero :=
  [tieA, tieB]

/-- The scored entry `recommend` builds for `tieA`. -/
noncomputable def tiePairA : Hero × ℝ :=
  (tieA, computeScore tieA (strLower "dps") "m" 0.6 0.35 0.05)

/-- The scored entry `recommend` builds for `tieB`. -/
noncomputable def tiePairB : Hero × ℝ :=
  (tieB, computeScore tieB (strLower "dps") "m" 0.6 0.35 0.05)

theorem charToLower_idem (c : Char) : c.toLower.toLower = c.toLower := by
  unfold Char.toLower
  by_cases h : c.toNat ≥ 65 ∧ c.toNat ≤ 90
  · rw [if_pos h]
    have hv : ((c.toNat + 32) : Nat).isValidChar := Or.inl (by omega)
    have ht : (Char.ofNat (c.toNat + 32)).toNat = c.toNat + 32 := by
      rw [Char.ofNat, dif_pos hv]; rfl
    rw [if_neg (by rw [ht]; omega)]
  · rw [if_neg h, if_neg h]

theorem strLower_idem (s : String) : strLower (strLower s) = strLower s := by
  show (⟨(s.data.map Char.toLower).map Char.toLower⟩ : String) = ⟨s.data.map Char.toLower⟩
  rw [List.map_map]
  exact congrArg String.mk (List.map_congr_left fun c _ => charToLower_idem c)

theorem dget_eq_default {κ : Type} [BEq κ] [LawfulBEq κ] (l : List (κ × ℝ)) (k : κ) (d : ℝ)
    (h : ∀ p ∈ l, p.1 ≠ k) : dget l k d = d := by
  unfold dget
  rw [List.find?_eq_none.mpr]
  · rfl
  · intro p hp
    simpa using h p (List.mem_reverse.mp hp)

theorem round4_mono {x y : ℝ} (h : x ≤ y) : round4 x ≤ round4 y := by
  unfold round4
  have hr : round (x * 10000) ≤ round (y * 10000) := by
    rw [round_eq, round_eq]
    exact Int.floor_mono (by linarith)
  have : ((round (x * 10000) : ℤ) : ℝ) ≤ ((round (y * 10000) : ℤ) : ℝ) := by
    exact_mod_cast hr
  linarith

theorem round4_eq_of_bounds (x : ℝ) (m : ℤ) (h1 : (m : ℝ) - 1 / 2 ≤ x * 10000)
    (h2 : x * 10000 < (m : ℝ) + 1 / 2) : round4 x = (m : ℝ) / 10000 := by
  unfold round4
  have : round (x * 10000) = m := by
    rw [round_eq, Int.floor_eq_iff]
    constructor <;> linarith
  rw [this]

theorem pyTake_sublist {α : Type} (n : ℤ) (l : List α) : List.Sublist (pyTake n l) l := by
  unfold pyTake
  split <;> exact List.take_sublist _ _

theorem pyTake_isPrefix {α : Type} (n : ℤ) (l : List α) : pyTake n l <+: l := by
  unfold pyTake
  split <;> exact List.take_prefix _ _

theorem pyTake_length {α : Type} (n : ℤ) (l : List α) :
    (pyTake n l).length =
      if 0 ≤ n then min n.toNat l.length else ((l.length : ℤ) + n).toNat := by
  unfold pyTake
  split
  · simp [List.length_take]
  · rename_i hn
    rw [List.length_take]
    omega

theorem sortedScored_length (heroes : List Hero) (role map_name : String) (mw rw bw : ℝ) :
    (sortedScoredOf heroes role map_name mw rw bw).length = (candidatesOf heroes role).length := by
  unfold sortedScoredOf scoredOf
  rw [List.length_insertionSort, List.length_map]

theorem recommend_length (heroes : List Hero) (role map_name : String) (n : ℤ) (mw rw bw : ℝ) :
    (recommend heroes role map_name n mw rw bw).length =
      if 0 ≤ n then min n.toNat (candidatesOf heroes role).length
      else (((candidatesOf heroes role).length : ℤ) + n).toNat := by
  unfold recommend
  rw [pyTake_length, sortedScored_length]

theorem mem_recommend_mem_scored {heroes : List Hero} {role map_name : String} {n : ℤ}
    {mw rw bw : ℝ} {p : Hero × ℝ} (hp : p ∈ recommend heroes role map_name n mw rw bw) :
    p ∈ scoredOf heroes role map_name mw rw bw := by
  have h1 : p ∈ sortedScoredOf heroes role map_name mw rw bw :=
    (pyTake_sublist n _).subset hp
  exact (List.perm_insertionSort scoreRel _).subset h1

theorem dget_le {κ : Type} [BEq κ] {l : List (κ × ℝ)} {k : κ} {d c : ℝ} (hd : d ≤ c)
    (hl : ∀ p ∈ l, p.2 ≤ c) : dget l k d ≤ c := by
  unfold dget
  cases hfind : l.reverse.find? (fun p => p.1 == k) with
  | none => simpa using hd
  | some p =>
    simp only [Option.map_some', Option.getD_some]
    exact hl p (List.mem_reverse.mp (List.mem_of_find?_eq_some hfind))

theorem computeScore_eq_specScore (h : Hero) (role context : String) (mw rw bw : ℝ) :
    computeScore h (strLower role) context mw rw bw = specScore h role context mw rw bw := by
  unfold computeScore specScore Hero.raw_map_score Hero.role_proficiency
    Hero.map_role_bonus_multiplier
  rw [strLower_idem]

/-- C3: for every dataset, role and context, an entity is a candidate (and
members of `recommend`'s result are candidates) iff the lowercased role is in
its stored role set, and if no entity qualifies the result is empty. -/
theorem claim_C3_filter_correct (heroes : List Hero) (role map_name : String) (n : ℤ)
    (mw rw bw : ℝ) :
    (∀ h : Hero, h ∈ candidatesOf heroes role ↔ h ∈ heroes ∧ strLower role ∈ h.roles) ∧
    (∀ p ∈ recommend heroes role map_name n mw rw bw, p.1 ∈ candidatesOf heroes role) ∧
    (candidatesOf heroes role = [] → recommend heroes role map_name n mw rw bw = []) := by
  refine ⟨fun h => ?_, fun p hp => ?_, fun hc => ?_⟩
  · unfold candidatesOf
    simp [List.mem_filter]
  · rcases List.mem_map.mp (mem_recommend_mem_scored hp) with ⟨h, hh, rfl⟩
    exact hh
  · unfold recommend sortedScoredOf scoredOf
    rw [hc]
    simp [pyTake]

/-- C3 witness: role "Healer" has no candidates in `HEROES`, so the result is
empty. -/
theorem claim_C3_witness :
    recommend HEROES "Healer" "midtown" 3 0.6 0.35 0.05 = [] :=
  (claim_C3_filter_correct HEROES "Healer" "midtown" 3 0.6 0.35 0.05).2.2
    (List.length_eq_zero.mp (by decide))

/-- C2 is false on the code: for the dataset and role "DPS", `top_n = -1`
yields a nine-element (hence nonempty) result, because Python's
`scored[:top_n]` drops trailing elements for negative `top_n`. -/
theorem claim_C2_counterexample :
    recommend HEROES "DPS" "midtown" (-1) 0.6 0.35 0.05 ≠ [] := by
  intro h
  have hl := recommend_length HEROES "DPS" "midtown" (-1) 0.6 0.35 0.05
  have hc : (candidatesOf HEROES "DPS").length = 10 := by decide
  rw [h, hc] at hl
  norm_num at hl
  omega

/-- C2 amended: for `top_n = 0` the result is empty; for negative `top_n` the
result keeps all but the last `|top_n|` scored candidates, i.e. it has length
`max 0 (#candidates + top_n)` and is empty only when `|top_n| ≥ #candidates`. -/
theorem claim_C2_amended (heroes : List Hero) (role map_name : String) (n : ℤ)
    (mw rw bw : ℝ) (hn : n ≤ 0) :
    (recommend heroes role map_name n mw rw bw).length =
      if n = 0 then 0 else (((candidatesOf heroes role).length : ℤ) + n).toNat := by
  rw [recommend_length]
  by_cases h0 : n = 0
  · subst h0
    simp
  · rw [if_neg (by omega : ¬ 0 ≤ n), if_neg h0]

/-- C2 amended witness: `top_n = -1` on role "DPS" keeps 9 of the 10
candidates. -/
theorem claim_C2_amended_witness :
    (-1 : ℤ) ≤ 0 ∧ (recommend HEROES "DPS" "midtown" (-1) 0.6 0.35 0.05).length = 9 := by
  refine ⟨by decide, ?_⟩
  rw [claim_C2_amended HEROES "DPS" "midtown" (-1) 0.6 0.35 0.05 (by decide)]
  decide

/-- C5: for positive `top_n` the result length is the minimum of `top_n` and
the number of candidates able to play the role. -/
theorem claim_C5_truncation (heroes : List Hero) (role map_name : String) (n : ℤ)
    (mw rw bw : ℝ) (hn : 0 < n) :
    (recommend heroes role map_name n mw rw bw).length =
      min n.toNat (candidatesOf heroes role).length := by
  rw [recommend_length, if_pos (le_of_lt hn)]

/-- C5 witness: `top_n = 3` on role "DPS" (10 candidates) returns exactly 3. -/
theorem claim_C5_witness :
    (0 : ℤ) < 3 ∧ (recommend HEROES "DPS" "midtown" 3 0.6 0.35 0.05).length = 3 := by
  refine ⟨by decide, ?_⟩
  rw [claim_C5_truncation HEROES "DPS" "midtown" 3 0.6 0.35 0.05 (by decide)]
  decide

/-- C4: the result of `recommend` is sorted in descending order of computed
score, with ties in ascending order of lowercased name. -/
theorem claim_C4_sort_order (heroes : List Hero) (role map_name : String) (n : ℤ)
    (mw rw bw : ℝ) :
    (recommend heroes role map_name n mw rw bw).Pairwise
      (fun a b => b.2 < a.2 ∨ (a.2 = b.2 ∧ strLower a.1.name ≤ strLower b.1.name)) := by
  have hs : (sortedScoredOf heroes role map_name mw rw bw).Pairwise scoreRel :=
    List.sorted_insertionSort scoreRel _
  exact (hs.sublist (pyTake_sublist n _) : _)

/-- C1: for nonnegative weights, every score computed by `recommend` (on every
scored candidate, in particular on every result entry) equals the
specification formula `round(base * bonus ** (bonusWeight * 10), 4)` with
`base = clamp(rawContextScore/10, 0, 1) * mapWeight + roleProficiency * roleWeight`
and the lowercased-key defaults. -/
theorem claim_C1_score_formula (heroes : List Hero) (role context : String) (n : ℤ)
    (mw rw bw : ℝ) (hmw : 0 ≤ mw) (hrw : 0 ≤ rw) (hbw : 0 ≤ bw) :
    (∀ p ∈ scoredOf heroes role context mw rw bw,
      p.2 = specScore p.1 role context mw rw bw) ∧
    (∀ p ∈ recommend heroes role context n mw rw bw,
      p.2 = specScore p.1 role context mw rw bw) := by
  have hall : ∀ p ∈ scoredOf heroes role context mw rw bw,
      p.2 = specScore p.1 role context mw rw bw := by
    intro p hp
    rcases List.mem_map.mp hp with ⟨h, _, rfl⟩
    exact computeScore_eq_specScore h role context mw rw bw
  exact ⟨hall, fun p hp => hall p (mem_recommend_mem_scored hp)⟩

/-- C1 witness: the default weights are nonnegative and every scored candidate
for role "DPS" on "midtown" carries the specification score. -/
theorem claim_C1_witness :
    (0 : ℝ) ≤ 0.6 ∧ (0 : ℝ) ≤ 0.35 ∧ (0 : ℝ) ≤ 0.05 ∧
    ∀ p ∈ scoredOf HEROES "DPS" "midtown" 0.6 0.35 0.05,
      p.2 = specScore p.1 "DPS" "midtown" 0.6 0.35 0.05 :=
  ⟨by norm_num, by norm_num, by norm_num,
    (claim_C1_score_formula HEROES "DPS" "midtown" 3 0.6 0.35 0.05
      (by norm_num) (by norm_num) (by norm_num)).1⟩

/-- C7: missing optional data always defaults: no context entry gives
contextNorm 0, no proficiency entry gives roleProf 0, and no bonus entry
gives multiplier 1, in which case the final score is the rounded base term. -/
theorem claim_C7_defaulting (h : Hero) (role map_name : String) (mw rw bw : ℝ) :
    (strLower map_name ∉ h.map_scores.map Prod.fst →
      max 0 (min 1 (h.raw_map_score map_name / 10)) = 0) ∧
    (strLower role ∉ h.role_proficiencies.map Prod.fst →
      h.role_proficiency role = 0) ∧
    ((strLower map_name, strLower role) ∉ h.map_role_bonus.map Prod.fst →
      h.map_role_bonus_multiplier map_name role = 1 ∧
      computeScore h role map_name mw rw bw =
        round4 (max 0 (min 1 (h.raw_map_score map_name / 10)) * mw +
          h.role_proficiency role * rw)) := by
  refine ⟨fun hc => ?_, fun hr => ?_, fun hb => ?_⟩
  · have : h.raw_map_score map_name = 0 := by
      unfold Hero.raw_map_score
      exact dget_eq_default _ _ _ fun p hp he =>
        hc (he ▸ List.mem_map_of_mem Prod.fst hp)
    rw [this]
    norm_num
  · unfold Hero.role_proficiency
    exact dget_eq_default _ _ _ fun p hp he =>
      hr (he ▸ List.mem_map_of_mem Prod.fst hp)
  · have hm : h.map_role_bonus_multiplier map_name role = 1 := by
      unfold Hero.map_role_bonus_multiplier
      exact dget_eq_default _ _ _ fun p hp he =>
        hb (he ▸ List.mem_map_of_mem Prod.fst hp)
    refine ⟨hm, ?_⟩
    unfold computeScore
    rw [hm, Real.one_rpow, mul_one]

/-- C7 witness: a hero with no optional data at all gets contextNorm 0,
roleProf 0, bonus 1 and the rounded base term as score. -/
theorem claim_C7_witness :
    max 0 (min 1 (emptyHero.raw_map_score "midtown" / 10)) = 0 ∧
    emptyHero.role_proficiency "dps" = 0 ∧
    emptyHero.map_role_bonus_multiplier "midtown" "dps" = 1 ∧
    computeScore emptyHero "dps" "midtown" 0.6 0.35 0.05 =
      round4 (max 0 (min 1 (emptyHero.raw_map_score "midtown" / 10)) * 0.6 +
        emptyHero.role_proficiency "dps" * 0.35) := by
  have h := claim_C7_defaulting emptyHero "dps" "midtown" 0.6 0.35 0.05
  exact ⟨h.1 (by decide), h.2.1 (by decide), (h.2.2 (by decide)).1, (h.2.2 (by decide)).2⟩

/-- C8: `recommend` is case-insensitive in the role and the context: any two
spellings with equal lowercasings produce identical results. -/
theorem claim_C8_case_insensitive (heroes : List Hero) (role role' map_name map_name' : String)
    (n : ℤ) (mw rw bw : ℝ) (hr : strLower role' = strLower role)
    (hm : strLower map_name' = strLower map_name) :
    recommend heroes role' map_name' n mw rw bw = recommend heroes role map_name n mw rw bw := by
  unfold recommend sortedScoredOf scoredOf candidatesOf computeScore Hero.raw_map_score
    Hero.role_proficiency Hero.map_role_bonus_multiplier
  rw [hr, hm]

/-- C8 witness: mixed-case "DpS" and "MidTown" give the same result as "dps"
and "midtown". -/
theorem claim_C8_witness :
    strLower "DpS" = strLower "dps" ∧ strLower "MidTown" = strLower "midtown" ∧
    recommend HEROES "DpS" "MidTown" 3 0.6 0.35 0.05 =
      recommend HEROES "dps" "midtown" 3 0.6 0.35 0.05 :=
  ⟨by decide, by decide,
    claim_C8_case_insensitive HEROES "dps" "DpS" "midtown" "MidTown" 3 0.6 0.35 0.05
      (by decide) (by decide)⟩

/-- C6 is false on the code: a hero with bonus multiplier 1 and perfect map
score, queried with the nonnegative weights mapWeight = 0.00006,
roleWeight = 0, bonusWeight = 0.05, gets the rounded score 0.0001, which
exceeds mapWeight + roleWeight = 0.00006. -/
theorem claim_C6_counterexample :
    probeHero.map_role_bonus_multiplier "m" "dps" = 1 ∧
    (0 : ℝ) ≤ 0.00006 ∧ (0 : ℝ) ≤ 0 ∧ (0 : ℝ) ≤ 0.05 ∧
    ¬ computeScore probeHero "dps" "m" 0.00006 0 0.05 ≤ 0.00006 + 0 := by
  have hb : probeHero.map_role_bonus_multiplier "m" "dps" = 1 := rfl
  have hraw : probeHero.raw_map_score "m" = 10 := rfl
  have hprof : probeHero.role_proficiency "dps" = 0 := rfl
  refine ⟨hb, by norm_num, le_refl 0, by norm_num, ?_⟩
  unfold computeScore
  rw [hb, hraw, hprof, Real.one_rpow, mul_one]
  have he : max (0 : ℝ) (min 1 ((10 : ℝ) / 10)) * 0.00006 + 0 * 0 = 0.00006 := by
    norm_num
  rw [he, round4_eq_of_bounds 0.00006 1 (by norm_num) (by norm_num)]
  norm_num

/-- C6 amended: for a hero whose bonus multiplier for the queried pair is 1
and whose stored proficiencies are all at most 1, and nonnegative weights,
the rounded score is at most the 4-digit rounding of
mapWeight + roleWeight. -/
theorem claim_C6_amended (h : Hero) (role map_name : String) (mw rw bw : ℝ)
    (hb : h.map_role_bonus_multiplier map_name role = 1)
    (hp : ∀ p ∈ h.role_proficiencies, p.2 ≤ 1)
    (hmw : 0 ≤ mw) (hrw : 0 ≤ rw) (hbw : 0 ≤ bw) :
    computeScore h role map_name mw rw bw ≤ round4 (mw + rw) := by
  unfold computeScore
  rw [hb, Real.one_rpow, mul_one]
  apply round4_mono
  have h1 : max (0 : ℝ) (min 1 (h.raw_map_score map_name / 10)) ≤ 1 :=
    max_le (by norm_num) (min_le_left _ _)
  have h2 : h.role_proficiency role ≤ 1 := by
    unfold Hero.role_proficiency
    exact dget_le (by norm_num) hp
  have h3 := mul_le_mul_of_nonneg_right h1 hmw
  have h4 := mul_le_mul_of_nonneg_right h2 hrw
  linarith

/-- C6 amended witness: Spider-Man on "arakko" (no bonus entry, proficiency
0.95) with the default weights scores at most `round4 (0.6 + 0.35)`. -/
theorem claim_C6_amended_witness :
    spiderMan.map_role_bonus_multiplier "arakko" "dps" = 1 ∧
    (∀ p ∈ spiderMan.role_proficiencies, p.2 ≤ 1) ∧
    computeScore spiderMan "dps" "arakko" 0.6 0.35 0.05 ≤ round4 (0.6 + 0.35) := by
  have hb : spiderMan.map_role_bonus_multiplier "arakko" "dps" = 1 := rfl
  have hp : ∀ p ∈ spiderMan.role_proficiencies, p.2 ≤ 1 := by
    have he : spiderMan.role_proficiencies = [("dps", (0.95 : ℝ))] := rfl
    intro p hmem
    rw [he] at hmem
    simp only [List.mem_singleton] at hmem
    subst hmem
    norm_num
  exact ⟨hb, hp,
    claim_C6_amended spiderMan "dps" "arakko" 0.6 0.35 0.05 hb hp
      (by norm_num) (by norm_num) (by norm_num)⟩

/-- C9: for Spider-Man, role "DPS" on context "midtown" with the default
weights, the base is 0.9025 and the final score is
`round4 (0.9025 * 1.05 ^ 0.5) = 0.9248`. -/
theorem claim_C9_concrete_scenario :
    max 0 (min 1 (spiderMan.raw_map_score "midtown" / 10)) * 0.6 +
      spiderMan.role_proficiency "DPS" * 0.35 = 0.9025 ∧
    computeScore spiderMan "DPS" "midtown" 0.6 0.35 0.05 =
      round4 ((0.9025 : ℝ) * (1.05 : ℝ) ^ ((0.5 : ℝ))) ∧
    computeScore spiderMan "DPS" "midtown" 0.6 0.35 0.05 = 0.9248 := by
  have hraw : spiderMan.raw_map_score "midtown" = 9.5 := rfl
  have hprof : spiderMan.role_proficiency "DPS" = 0.95 := rfl
  have hbon : spiderMan.map_role_bonus_multiplier "midtown" "DPS" = 1.05 := rfl
  have hmin : min (1 : ℝ) ((9.5 : ℝ) / 10) = 9.5 / 10 := min_eq_right (by norm_num)
  have hmax : max (0 : ℝ) ((9.5 : ℝ) / 10) = 9.5 / 10 := max_eq_right (by norm_num)
  have hbase : max 0 (min 1 (spiderMan.raw_map_score "midtown" / 10)) * 0.6 +
      spiderMan.role_proficiency "DPS" * 0.35 = 0.9025 := by
    rw [hraw, hprof, hmin, hmax]
    norm_num
  have hexp : (0.05 : ℝ) * 10 = 0.5 := by norm_num
  have hscore : computeScore spiderMan "DPS" "midtown" 0.6 0.35 0.05 =
      round4 ((0.9025 : ℝ) * (1.05 : ℝ) ^ ((0.5 : ℝ))) := by
    unfold computeScore
    rw [hbon, hexp, hbase]
  have ht0 : (0 : ℝ) ≤ (1.05 : ℝ) ^ ((0.5 : ℝ)) := Real.rpow_nonneg (by norm_num) _
  have ht2 : (1.05 : ℝ) ^ ((0.5 : ℝ)) * (1.05 : ℝ) ^ ((0.5 : ℝ)) = 1.05 := by
    rw [← Real.rpow_add (by norm_num : (0 : ℝ) < 1.05)]
    rw [show (0.5 : ℝ) + 0.5 = 1 by norm_num, Real.rpow_one]
  have hlo : (9247.5 : ℝ) ≤ 9025 * ((1.05 : ℝ) ^ ((0.5 : ℝ))) := by
    nlinarith [ht2, ht0]
  have hhi : (9025 : ℝ) * ((1.05 : ℝ) ^ ((0.5 : ℝ))) < 9248.5 := by
    nlinarith [ht2, ht0]
  have hval : round4 ((0.9025 : ℝ) * (1.05 : ℝ) ^ ((0.5 : ℝ))) = 0.9248 := by
    rw [round4_eq_of_bounds _ 9248 (by push_cast; nlinarith [hlo]) (by push_cast; nlinarith [hhi])]
    norm_num
  exact ⟨hbase, hscore, hscore.trans hval⟩

/-- C10: the sort is stable: two scored candidates with equal score and equal
lowercased name keep their dataset order in the sorted sequence, and the
result of `recommend` is a prefix of that sequence. -/
theorem claim_C10_stability (heroes : List Hero) (role map_name : String) (n : ℤ)
    (mw rw bw : ℝ) (p q : Hero × ℝ) (hs : p.2 = q.2)
    (hn : strLower p.1.name = strLower q.1.name)
    (hsub : List.Sublist [p, q] (scoredOf heroes role map_name mw rw bw)) :
    List.Sublist [p, q] (sortedScoredOf heroes role map_name mw rw bw) ∧
    recommend heroes role map_name n mw rw bw <+:
      sortedScoredOf heroes role map_name mw rw bw :=
  ⟨List.pair_sublist_insertionSort (Or.inr ⟨hs, le_of_eq hn⟩) hsub, pyTake_isPrefix n _⟩

/-- C10 witness: two heroes named "aa" and "AA" with no data tie on score and
lowercased name and keep their dataset order in the sorted sequence. -/
theorem claim_C10_witness :
    tiePairA.2 = tiePairB.2 ∧
    strLower tiePairA.1.name = strLower tiePairB.1.name ∧
    List.Sublist [tiePairA, tiePairB] (sortedScoredOf tieDS "dps" "m" 0.6 0.35 0.05) ∧
    recommend tieDS "dps" "m" 2 0.6 0.35 0.05 <+:
      sortedScoredOf tieDS "dps" "m" 0.6 0.35 0.05 := by
  have hs : tiePairA.2 = tiePairB.2 := rfl
  have hn : strLower tiePairA.1.name = strLower tiePairB.1.name := by decide
  have heq : scoredOf tieDS "dps" "m" 0.6 0.35 0.05 = [tiePairA, tiePairB] := rfl
  have hsub : List.Sublist [tiePairA, tiePairB] (scoredOf tieDS "dps" "m" 0.6 0.35 0.05) := by
    rw [heq]
  have h := claim_C10_stability tieDS "dps" "m" 2 0.6 0.35 0.05 tiePairA tiePairB hs hn hsub
  exact ⟨hs, hn, h.1, h.2⟩

end Rivals
